import Mathlib

/-!
Verification of the AI-Model-Bazaar demo-orchestration specification against
the repository. The frontend client (src/model-hub/frontend) is embedded
directly from its TypeScript source; the backend orchestration core is not
part of the repository snapshot (only its HTTP client and UI callers are),
so its operations are modelled from the specification where the doc comment
says so.
-/

namespace ModelHub

/-! ## Browser localStorage and the auth utilities (src/unnamed/part_005, auth.ts) -/

/-- Browser localStorage, modelled as an association list from keys to stored
strings. -/
abbrev LocalStorage := List (String × String)

/-- Storage key of the JWT token (TOKEN_KEY in auth.ts). -/
def tokenKey : String := "token"

/-- Storage key of the serialized user (USER_KEY in auth.ts). -/
def userKey : String := "user"

/-- Model of localStorage.getItem: the first entry with the given key. -/
def getItem (st : LocalStorage) (k : String) : Option String :=
  (st.find? (fun e => e.1 == k)).map Prod.snd

/-- Model of localStorage.removeItem: drops the entries with the given key. -/
def removeItem (st : LocalStorage) (k : String) : LocalStorage :=
  st.filter (fun e => !(e.1 == k))

/-- Embeds auth.getToken (auth.ts lines 24-29): the stored token when running
in a browser context, null otherwise. -/
def getToken (windowDefined : Bool) (st : LocalStorage) : Option String :=
  if windowDefined then getItem st tokenKey else none

/-- Embeds auth.isAuthenticated (auth.ts lines 61-63): true iff getToken is
not null. -/
def isAuthenticated (windowDefined : Bool) (st : LocalStorage) : Bool :=
  (getToken windowDefined st).isSome

/-- Embeds the User interface (src/model-hub/frontend/src/types/index.ts
lines 6-13). -/
structure User where
  id : String
  email : String
  username : String
  is_active : Bool
  is_creator : Bool
  created_at : String
deriving DecidableEq

/-- Outcome of JSON.parse on a stored user string: a parsed User or a thrown
exception. The parser is a browser primitive, so it is a parameter of the
embedding. -/
inductive ParseOutcome where
  | ok (u : User)
  | thrown (msg : String)
deriving DecidableEq

/-- Embeds auth.getUser (auth.ts lines 34-46): outside a browser context it
returns null; otherwise it reads the stored user entry, returns null when the
entry is absent, and wraps JSON.parse in try/catch so a thrown parse error
becomes null. -/
def getUser (windowDefined : Bool) (parse : String → ParseOutcome)
    (st : LocalStorage) : Option User :=
  if windowDefined then
    match getItem st userKey with
    | some userData =>
      match parse userData with
      | ParseOutcome.ok u => some u
      | ParseOutcome.thrown _ => none
    | none => none
  else none

/-- Embeds the response-error interceptor
(src/model-hub/frontend/src/lib/api.ts lines 43-57): on a response with HTTP
status 401 it removes the stored token and user (in a browser context) before
rejecting; any other outcome leaves localStorage unchanged. The status is an
Option because a network failure has no response. -/
def handleResponseError (windowDefined : Bool) (status : Option Nat)
    (st : LocalStorage) : LocalStorage :=
  if status = some 401 then
    if windowDefined then removeItem (removeItem st tokenKey) userKey else st
  else st

/-! ## Frontend status types (types/index.ts, LaunchButton.tsx) -/

/-- Embeds ProjectStatus (src/model-hub/frontend/src/types/index.ts line 74),
the union type of the project status field. -/
inductive ProjectStatus where
  | pending
  | ready
  | launching
  | running
  | stopped
  | error
deriving DecidableEq

/-- String literal of each ProjectStatus union member, as written in
types/index.ts line 74. -/
def projectStatusString : ProjectStatus → String
  | ProjectStatus.pending => "pending"
  | ProjectStatus.ready => "ready"
  | ProjectStatus.launching => "launching"
  | ProjectStatus.running => "running"
  | ProjectStatus.stopped => "stopped"
  | ProjectStatus.error => "error"

/-- Embeds EnvStatus (src/model-hub/frontend/src/components/demo/
LaunchButton.tsx line 25), the union type of the client-side environment
status. -/
inductive EnvStatus where
  | not_prepared
  | preparing
  | ready
deriving DecidableEq

/-- String literal of each EnvStatus union member, as written in
LaunchButton.tsx line 25. -/
def envStatusString : EnvStatus → String
  | EnvStatus.not_prepared => "not_prepared"
  | EnvStatus.preparing => "preparing"
  | EnvStatus.ready => "ready"

/-- The six status strings of the frontend ProjectStatus union. -/
def projectStatusStrings : List String :=
  ["pending", "ready", "launching", "running", "stopped", "error"]

/-- Stated in the spec (section 3): the eight session-state values. This
definition follows the spec's words, for comparison with the code's types. -/
def specSessionStateStrings : List String :=
  ["not_prepared", "preparing", "ready", "launching", "running", "stopping",
   "stopped", "error"]

/-- Stated in the spec (section 4.2): the four Environment Preparer status
values. This definition follows the spec's words, for comparison with the
code's types. -/
def specEnvStatusStrings : List String :=
  ["not_prepared", "preparing", "ready", "error"]

/-- Embeds the install-button guard (LaunchButton.tsx line 345): the install
button is disabled while an install request is in flight or when the
environment status is preparing or ready. -/
def installButtonDisabled (isInstalling : Bool) (envStatus : EnvStatus) : Bool :=
  isInstalling || (decide (envStatus = EnvStatus.preparing))
    || (decide (envStatus = EnvStatus.ready))

/-- Embeds the declared keys of the stop-all response object
(src/model-hub/frontend/src/lib/api.ts lines 152-155). -/
def stopAllResponseKeys : List String :=
  ["demos_stopped", "ports_freed", "message"]

/-- Embeds the RunningDemo record of the running-demos sidebar
(src/model-hub/frontend/src/components/demo/StopAllButton.tsx lines 98-104). -/
structure RunningDemo where
  project_id : String
  project_name : String
  port : Nat
  demo_url : String
  started_at : String
deriving DecidableEq

/-- Embeds the orphaned-port computation of the running-demos sidebar
(StopAllButton.tsx lines 314-315): the used ports that no listed running demo
holds. -/
def orphanedPorts (usedPorts : List Nat) (runningDemos : List RunningDemo) :
    List Nat :=
  usedPorts.filter (fun port => !(runningDemos.any (fun d => d.port == port)))

/-! ## Helper lemmas about the localStorage model -/

theorem getItem_removeItem_self (st : LocalStorage) (k : String) :
    getItem (removeItem st k) k = none := by
  have h : (removeItem st k).find? (fun e => e.1 == k) = none := by
    rw [List.find?_eq_none]
    intro x hx
    have hkept := (List.mem_filter.mp hx).2
    simpa using hkept
  simp [getItem, h]

theorem getItem_removeItem_ne (st : LocalStorage) (k k2 : String)
    (h : k ≠ k2) : getItem (removeItem st k2) k = getItem st k := by
  induction st with
  | nil => rfl
  | cons e rest ih =>
    by_cases h1 : e.1 = k2
    · have h3 : (e.1 == k) = false := by
        rw [beq_eq_false_iff_ne]
        intro hc
        exact h (by rw [← hc, h1])
      have hrm : removeItem (e :: rest) k2 = removeItem rest k2 := by
        simp [removeItem, List.filter_cons, h1]
      rw [hrm, ih]
      simp [getItem, List.find?_cons, h3]
    · have hkeep : removeItem (e :: rest) k2 = e :: removeItem rest k2 := by
        simp [removeItem, List.filter_cons, h1]
      rw [hkeep]
      by_cases h3 : e.1 = k
      · simp [getItem, List.find?_cons, h3]
      · have h3f : (e.1 == k) = false := beq_eq_false_iff_ne.mpr h3
        simp only [getItem, List.find?_cons, h3f]
        exact ih

/-! ## Claims about the frontend code -/

/-- C9: a response with HTTP status 401 makes the interceptor remove the
stored token and the stored user, so isAuthenticated is false afterward; a
response with any other status (or no response at all) leaves localStorage
unchanged. -/
theorem interceptor_clears_auth_on_401 :
    (∀ st : LocalStorage,
      getItem (handleResponseError true (some 401) st) tokenKey = none
      ∧ getItem (handleResponseError true (some 401) st) userKey = none
      ∧ isAuthenticated true (handleResponseError true (some 401) st) = false)
    ∧ (∀ (wd : Bool) (status : Option Nat) (st : LocalStorage),
        status ≠ some 401 → handleResponseError wd status st = st) := by
  refine ⟨fun st => ?_, fun wd status st hne => ?_⟩
  · have hred : handleResponseError true (some 401) st
        = removeItem (removeItem st tokenKey) userKey := by
      simp [handleResponseError]
    have htok : getItem (removeItem (removeItem st tokenKey) userKey)
        tokenKey = none := by
      rw [getItem_removeItem_ne _ _ _ (by decide), getItem_removeItem_self]
    have huser : getItem (removeItem (removeItem st tokenKey) userKey)
        userKey = none := getItem_removeItem_self _ _
    refine ⟨hred ▸ htok, hred ▸ huser, ?_⟩
    simp [isAuthenticated, getToken, hred, htok]
  · simp [handleResponseError, hne]

/-- Witness for C9: a 500 response leaves the stored credentials unchanged. -/
theorem interceptor_clears_auth_on_401_instance :
    handleResponseError false (some 500) [(tokenKey, "t")] = [(tokenKey, "t")] :=
  interceptor_clears_auth_on_401.2 false (some 500) [(tokenKey, "t")] (by decide)

/-- C10: auth.getUser is total over every content of the stored user entry:
an absent entry yields null, a parse that throws yields null through the
catch branch, a successful parse yields the parsed user, and outside a
browser context it yields null; the thrown exception is never propagated. -/
theorem getUser_total (parse : String → ParseOutcome) (st : LocalStorage) :
    (getItem st userKey = none → getUser true parse st = none)
    ∧ (∀ raw msg, getItem st userKey = some raw →
        parse raw = ParseOutcome.thrown msg → getUser true parse st = none)
    ∧ (∀ raw u, getItem st userKey = some raw →
        parse raw = ParseOutcome.ok u → getUser true parse st = some u)
    ∧ getUser false parse st = none := by
  refine ⟨fun h => ?_, fun raw msg h hp => ?_, fun raw u h hp => ?_, rfl⟩
  · simp [getUser, h]
  · simp [getUser, h, hp]
  · simp [getUser, h, hp]

/-- Witness for C10: a corrupt stored user entry yields null, not an
exception. -/
theorem getUser_total_instance :
    getUser true (fun _ => ParseOutcome.thrown "SyntaxError")
      [(userKey, "corrupt")] = none :=
  (getUser_total (fun _ => ParseOutcome.thrown "SyntaxError")
      [(userKey, "corrupt")]).2.1 "corrupt" "SyntaxError" (by decide) rfl

/-- C4 counterexample: the frontend project-status union contains the value
pending, which is not among the eight session-state values stated in the
spec; so the state field is not always one of those eight values. -/
theorem projectStatus_pending_counterexample :
    projectStatusString ProjectStatus.pending = "pending"
    ∧ "pending" ∈ projectStatusStrings
    ∧ "pending" ∉ specSessionStateStrings := by decide

/-- C4 (amended): every frontend project status is one of the six values
pending, ready, launching, running, stopped, error, and every client-side
environment status is one of the four Environment Preparer status values of
the spec. -/
theorem status_value_sets (ps : ProjectStatus) (es : EnvStatus) :
    projectStatusString ps ∈ projectStatusStrings
    ∧ envStatusString es ∈ specEnvStatusStrings := by
  cases ps <;> cases es <;> decide

/-- C2 counterexample: the stop-all response object declared in the client
api carries a demos_stopped key and no sessions_stopped key. -/
theorem stopAll_response_key_counterexample :
    "demos_stopped" ∈ stopAllResponseKeys
    ∧ "sessions_stopped" ∉ stopAllResponseKeys := by decide

/-! ## The Demo Orchestration Core

The backend that implements the orchestration core is not part of the
repository snapshot: src/ holds only its HTTP client (lib/api.ts) and UI
callers. The definitions below are therefore modelled from the spec, as
their doc comments note. -/

/-- Modelled from the spec: the backend session-state machine of section 3;
the backend source is missing from the snapshot. -/
inductive SessionState where
  | not_prepared
  | preparing
  | ready
  | launching
  | running
  | stopping
  | stopped
  | error
deriving DecidableEq

/-- Modelled from the spec: a per-project session record (spec section 3);
the backend source is missing from the snapshot. -/
structure Session where
  projectId : String
  state : SessionState
  port : Option Nat
  lastError : Option String
deriving DecidableEq

/-- Modelled from the spec: the global state of the orchestration core, the
session registry plus the port pool's used set (spec sections 3, 4.1, 4.4);
the backend source is missing from the snapshot. -/
structure SysState where
  sessions : List Session
  usedPorts : List Nat
deriving DecidableEq

/-- Lowest port of the demo pool; StopAllButton.tsx line 35 names the demo
port range 8501-8600, matching the spec's example range. -/
def PORT_MIN : Nat := 8501

/-- Highest port of the demo pool. -/
def PORT_MAX : Nat := 8600

/-- Modelled from the spec: the fixed pool range as a list, lowest first. -/
def portPool : List Nat := List.range' PORT_MIN (PORT_MAX + 1 - PORT_MIN)

/-- Modelled from the spec: acquire picks the lowest free port of the range;
none models the EXHAUSTED failure (spec section 4.1). -/
def acquire (s : SysState) : Option Nat :=
  portPool.find? (fun p => !(decide (p ∈ s.usedPorts)))

/-- Modelled from the spec: registry lookup of one project's session (spec
section 4.4). -/
def getSession (s : SysState) (pid : String) : Option Session :=
  s.sessions.find? (fun t => t.projectId == pid)

/-- Modelled from the spec: in-place update of one project's session in the
registry list. -/
def updateSession (ss : List Session) (pid : String) (f : Session → Session) :
    List Session :=
  ss.map (fun t => if t.projectId == pid then f t else t)

/-- Modelled from the spec: ensure-prepared (spec sections 4.2 and 4.5).
First contact creates the session and starts preparation; a session that is
already preparing or ready is returned untouched; a not-prepared, stopped or
errored session restarts preparation. The returned state is the status the
caller observes. -/
def prepareOp (s : SysState) (pid : String) : SessionState × SysState :=
  match getSession s pid with
  | none =>
    (SessionState.preparing,
      { s with sessions :=
          { projectId := pid, state := SessionState.preparing, port := none,
            lastError := none } :: s.sessions })
  | some t =>
    if t.state = SessionState.not_prepared ∨ t.state = SessionState.stopped
        ∨ t.state = SessionState.error then
      (SessionState.preparing,
        { s with sessions := updateSession s.sessions pid (fun u =>
            { u with state := SessionState.preparing, lastError := none }) })
    else
      (t.state, s)

/-- Modelled from the spec: completion of the asynchronous installation;
success moves a preparing session to ready, failure to error with a captured
diagnostic (spec section 4.2). -/
def finishInstall (s : SysState) (pid : String) (ok : Bool) : SysState :=
  { s with sessions := updateSession s.sessions pid (fun u =>
      if u.state = SessionState.preparing then
        if ok then { u with state := SessionState.ready }
        else { u with state := SessionState.error,
                      lastError := some "PreparationFailed" }
      else u) }

/-- Modelled from the spec: outcome of the launch operation (spec sections
4.5 and 7). -/
inductive LaunchResult where
  | launched (port : Nat)
  | portExhausted
  | notReady
  | notFound
deriving DecidableEq

/-- Modelled from the spec: launch acquires a port for a ready session and
starts the process on it; with no free port it fails with PortExhausted and
changes nothing (spec sections 4.5 and 7). This is the fast path on which
the spawned process passes its readiness probe at once; the phased path
through the port-holding launching state, the BindFailed retry and the
probe outcomes is modelled by launchStartOp, bindRetryOp, probeSucceedOp
and probeFailOp below. -/
def launchOp (s : SysState) (pid : String) : LaunchResult × SysState :=
  match getSession s pid with
  | none => (LaunchResult.notFound, s)
  | some t =>
    if t.state = SessionState.ready then
      match acquire s with
      | none => (LaunchResult.portExhausted, s)
      | some p =>
        (LaunchResult.launched p,
          { sessions := updateSession s.sessions pid (fun u =>
              { u with state := SessionState.running, port := some p }),
            usedPorts := p :: s.usedPorts })
    else (LaunchResult.notReady, s)

/-- Modelled from the spec: the first phase of launch — a ready session
acquires a port and enters the launching state, holding the port while the
process binds and the readiness probe runs (spec sections 3, 4.3 and 4.5:
the port is present while launching); with no free port it fails with
PortExhausted and changes nothing. -/
def launchStartOp (s : SysState) (pid : String) : LaunchResult × SysState :=
  match getSession s pid with
  | none => (LaunchResult.notFound, s)
  | some t =>
    if t.state = SessionState.ready then
      match acquire s with
      | none => (LaunchResult.portExhausted, s)
      | some p =>
        (LaunchResult.launched p,
          { sessions := updateSession s.sessions pid (fun u =>
              { u with state := SessionState.launching, port := some p }),
            usedPorts := p :: s.usedPorts })
    else (LaunchResult.notReady, s)

/-- Modelled from the spec: release a port-holding session, parking it in
the given final state with the given diagnostic and reclaiming its port; a
session holding no port is left untouched (spec sections 4.3 and 4.5). -/
def parkSession (s : SysState) (pid : String) (final : SessionState)
    (err : Option String) : SysState :=
  match getSession s pid with
  | none => s
  | some t =>
    match t.port with
    | none => s
    | some p =>
      { sessions := updateSession s.sessions pid (fun u =>
          { u with state := final, port := none, lastError := err }),
        usedPorts := s.usedPorts.erase p }

/-- Modelled from the spec: outcome of the stop operation (spec section
4.5); a session holding no port is a success no-op. -/
inductive StopResult where
  | stoppedOne (port : Nat)
  | noop
deriving DecidableEq

/-- Modelled from the spec: stop releases the session's port and parks it
stopped; a session holding no port (already stopped, or never launched) is a
success no-op (spec section 4.5). -/
def stopOp (s : SysState) (pid : String) : StopResult × SysState :=
  (match getSession s pid with
   | none => StopResult.noop
   | some t =>
     match t.port with
     | none => StopResult.noop
     | some p => StopResult.stoppedOne p,
   parkSession s pid SessionState.stopped none)

/-- Modelled from the spec: the supervisor's exit watcher; the unexpected
exit of a port-holding session releases the port and parks the session in
error (spec section 4.3). -/
def crashOp (s : SysState) (pid : String) : SysState :=
  parkSession s pid SessionState.error (some "ProcessCrashed")

/-- Modelled from the spec: the readiness probe succeeds and the launching
session becomes running, keeping its port (spec sections 4.3 and 4.5). -/
def probeSucceedOp (s : SysState) (pid : String) : SysState :=
  { s with sessions := (updateSession s.sessions pid (fun u =>
      if u.state = SessionState.launching then
        { u with state := SessionState.running }
      else u)) }

/-- Modelled from the spec: a launching session fails its readiness probe
within the timeout; its port is released immediately and the session parked
in error rather than left launching indefinitely (spec sections 4.3 and 5). -/
def probeFailOp (s : SysState) (pid : String) : SysState :=
  match getSession s pid with
  | none => s
  | some t =>
    if t.state = SessionState.launching then
      parkSession s pid SessionState.error (some "LaunchFailed")
    else s

/-- Modelled from the spec: the orchestrator's BindFailed retry — the bad
port of a launching session is released and a fresh port acquired for
another launching attempt; with no session, no held port, or the pool
exhausted after the release, nothing further changes and the failure
surfaces to the caller (spec sections 4.3, 4.5 and 7). -/
def bindRetryOp (s : SysState) (pid : String) : SysState :=
  match getSession s pid with
  | none => s
  | some t =>
    if t.state = SessionState.launching then
      (launchStartOp (parkSession s pid SessionState.ready none) pid).2
    else s

/-- Modelled from the spec: the first phase of stop — a running or launching
session enters the stopping state, still holding its port, while the
supervisor signals the process and waits out the grace period (spec
sections 3, 4.3 and 4.5); the release itself is the stop operation's park. -/
def stopBeginOp (s : SysState) (pid : String) : SysState :=
  { s with sessions := (updateSession s.sessions pid (fun u =>
      if u.state = SessionState.running ∨ u.state = SessionState.launching then
        { u with state := SessionState.stopping }
      else u)) }

/-- Modelled from the spec: the administrative stop-port escape hatch of
sections 4.5 and 6 — force-stop whatever session (if any) holds the given
port; a used port that no tracked session holds (an orphan) is reclaimed
directly. The frontend invokes this operation as demoApi.stopPort from the
running-demos sidebar. -/
def releasePortOp (s : SysState) (p : Nat) : Bool × SysState :=
  match s.sessions.find? (fun t => t.port == some p) with
  | some t => (true, parkSession s t.projectId SessionState.stopped none)
  | none => (false, { s with usedPorts := s.usedPorts.erase p })

/-- Modelled from the spec: the stop-all response, with the keys the client
declares in api.ts lines 152-155 (spec sections 4.5 and 6). -/
structure StopAllResponse where
  demos_stopped : Nat
  ports_freed : Nat
  message : String
deriving DecidableEq

/-- Modelled from the spec: stop-all walks every session holding a port and
stops each independently; a per-session supervisor failure (the fails
argument) leaves that session untouched but does not abort the remaining
ones; the response counts the sessions stopped and the ports freed (spec
sections 4.5 and 7). -/
def stopAllOp (s : SysState) (fails : String → Bool) :
    StopAllResponse × SysState :=
  let stoppedSessions :=
    s.sessions.filter (fun t => t.port.isSome && !(fails t.projectId))
  let freed := stoppedSessions.filterMap (fun t => t.port)
  ({ demos_stopped := stoppedSessions.length,
     ports_freed := freed.length,
     message := "All demos stopped" },
   { sessions := s.sessions.map (fun t =>
       if t.port.isSome && !(fails t.projectId) then
         { t with state := SessionState.stopped, port := none }
       else t),
     usedPorts := s.usedPorts.filter (fun p => !(decide (p ∈ freed))) })

/-- Modelled from the spec: status returns the current session snapshot and
changes nothing (spec section 4.5). -/
def statusOp (s : SysState) (pid : String) : Option Session × SysState :=
  (getSession s pid, s)

/-- Modelled from the spec: list-running returns the sessions in running
state together with the raw used-port set, and changes nothing (spec
sections 4.5 and 6). -/
def listRunningOp (s : SysState) : (List Session × List Nat) × SysState :=
  ((s.sessions.filter (fun t => decide (t.state = SessionState.running)),
    s.usedPorts), s)

/-- Modelled from the spec: the initial core state, an empty registry and no
used port. -/
def initState : SysState := { sessions := [], usedPorts := [] }

/-- Modelled from the spec: one transition of the core — the public
operations of sections 4.5 and 6 (prepare, launch with its phased
launching/bind-retry/probe path, stop with its stopping phase, stop-all, and
the stop-port escape hatch) together with the internal install-completion
and exit-watcher events. -/
inductive Step : SysState → SysState → Prop where
  | prepare (s : SysState) (pid : String) : Step s (prepareOp s pid).2
  | finish (s : SysState) (pid : String) (ok : Bool) :
      Step s (finishInstall s pid ok)
  | launch (s : SysState) (pid : String) : Step s (launchOp s pid).2
  | launchStart (s : SysState) (pid : String) : Step s (launchStartOp s pid).2
  | bindRetry (s : SysState) (pid : String) : Step s (bindRetryOp s pid)
  | probeSucceed (s : SysState) (pid : String) : Step s (probeSucceedOp s pid)
  | probeFail (s : SysState) (pid : String) : Step s (probeFailOp s pid)
  | stopBegin (s : SysState) (pid : String) : Step s (stopBeginOp s pid)
  | stop (s : SysState) (pid : String) : Step s (stopOp s pid).2
  | crash (s : SysState) (pid : String) : Step s (crashOp s pid)
  | stopAll (s : SysState) (fails : String → Bool) :
      Step s (stopAllOp s fails).2
  | releasePort (s : SysState) (p : Nat) : Step s (releasePortOp s p).2

/-- Modelled from the spec: the core states reachable from start-up. -/
inductive Reachable : SysState → Prop where
  | base : Reachable initState
  | step {s sNext : SysState} : Reachable s → Step s sNext → Reachable sNext

/-- Core invariant: registry keys are unique, the used set is
duplicate-free, every held port is in range and held only in a live state, a
port is in the used set exactly when some session holds it, and no two
sessions hold the same port. -/
structure Inv (s : SysState) : Prop where
  keysNodup : (s.sessions.map Session.projectId).Nodup
  usedNodup : s.usedPorts.Nodup
  portRange : ∀ t ∈ s.sessions, ∀ p : Nat, t.port = some p →
      PORT_MIN ≤ p ∧ p ≤ PORT_MAX
  portLive : ∀ t ∈ s.sessions, t.port.isSome = true →
      t.state = SessionState.launching ∨ t.state = SessionState.running
      ∨ t.state = SessionState.stopping
  usedIff : ∀ p : Nat, p ∈ s.usedPorts ↔ ∃ t, t ∈ s.sessions ∧ t.port = some p
  holderUnique : ∀ t1, t1 ∈ s.sessions → ∀ t2, t2 ∈ s.sessions →
      ∀ p : Nat, t1.port = some p → t2.port = some p → t1 = t2

/-! ## Helper lemmas about the core model -/

theorem getSession_mem {s : SysState} {pid : String} {t : Session}
    (h : getSession s pid = some t) : t ∈ s.sessions ∧ t.projectId = pid := by
  refine ⟨List.mem_of_find?_eq_some h, ?_⟩
  have hpred := List.find?_some h
  simpa using hpred

theorem getSession_none {s : SysState} {pid : String}
    (h : getSession s pid = none) : ∀ t ∈ s.sessions, t.projectId ≠ pid := by
  intro t ht
  have hpred := List.find?_eq_none.mp h t ht
  simpa using hpred

theorem session_eq_of_key {s : SysState}
    (hk : (s.sessions.map Session.projectId).Nodup) {t1 t2 : Session}
    (h1 : t1 ∈ s.sessions) (h2 : t2 ∈ s.sessions)
    (h : t1.projectId = t2.projectId) : t1 = t2 :=
  List.inj_on_of_nodup_map hk h1 h2 h

theorem updateSession_keys (ss : List Session) (pid : String)
    (f : Session → Session) (hfid : ∀ u, (f u).projectId = u.projectId) :
    (updateSession ss pid f).map Session.projectId
      = ss.map Session.projectId := by
  unfold updateSession
  rw [List.map_map]
  apply List.map_congr_left
  intro t _
  by_cases hc : t.projectId = pid
  · simp [Function.comp, hc, hfid]
  · simp [Function.comp, hc]

theorem acquire_range {s : SysState} {p : Nat} (h : acquire s = some p) :
    PORT_MIN ≤ p ∧ p ≤ PORT_MAX := by
  have hmem := List.mem_of_find?_eq_some h
  unfold portPool at hmem
  have hm := List.mem_range'_1.mp hmem
  unfold PORT_MIN PORT_MAX at hm ⊢
  omega

theorem acquire_free {s : SysState} {p : Nat} (h : acquire s = some p) :
    p ∉ s.usedPorts := by
  have hpred := List.find?_some h
  simpa using hpred

/-- Preservation of the invariant under an update that touches only the pid
session's non-port fields and keeps every port holder in a live state. -/
theorem inv_updateState {s : SysState} (hI : Inv s) (pid : String)
    (f : Session → Session)
    (hfid : ∀ u, (f u).projectId = u.projectId)
    (hfport : ∀ u, (f u).port = u.port)
    (hflive : ∀ u, u ∈ s.sessions → u.projectId = pid →
        u.port.isSome = true →
        (f u).state = SessionState.launching
        ∨ (f u).state = SessionState.running
        ∨ (f u).state = SessionState.stopping) :
    Inv { s with sessions := updateSession s.sessions pid f } := by
  have himg : ∀ u : Session,
      (if u.projectId == pid then f u else u).port = u.port := by
    intro u
    by_cases hc : u.projectId = pid <;> simp [hc, hfport]
  constructor
  · simpa [updateSession_keys s.sessions pid f hfid] using hI.keysNodup
  · exact hI.usedNodup
  · intro t2 ht2 p hp
    obtain ⟨u, hu, heq⟩ := List.mem_map.mp ht2
    have hport2 : t2.port = u.port := by rw [← heq]; exact himg u
    exact hI.portRange u hu p (by rw [← hport2]; exact hp)
  · intro t2 ht2 hsome
    obtain ⟨u, hu, heq⟩ := List.mem_map.mp ht2
    have hport2 : t2.port = u.port := by rw [← heq]; exact himg u
    have husome : u.port.isSome = true := by rw [← hport2]; exact hsome
    by_cases hc : u.projectId = pid
    · have ht2e : t2 = f u := by rw [← heq]; simp [hc]
      rw [ht2e]
      exact hflive u hu hc husome
    · have ht2e : t2 = u := by rw [← heq]; simp [hc]
      rw [ht2e]
      exact hI.portLive u hu husome
  · intro p
    constructor
    · intro hp
      obtain ⟨u, hu, hport⟩ := (hI.usedIff p).mp hp
      refine ⟨(fun t => if t.projectId == pid then f t else t) u,
        List.mem_map_of_mem _ hu, ?_⟩
      rw [himg u]
      exact hport
    · rintro ⟨t2, ht2, hport⟩
      obtain ⟨u, hu, heq⟩ := List.mem_map.mp ht2
      have hport2 : t2.port = u.port := by rw [← heq]; exact himg u
      exact (hI.usedIff p).mpr ⟨u, hu, by rw [← hport2]; exact hport⟩
  · intro t1 h1 t2 h2 p hp1 hp2
    obtain ⟨u1, hu1, heq1⟩ := List.mem_map.mp h1
    obtain ⟨u2, hu2, heq2⟩ := List.mem_map.mp h2
    have hq1 : t1.port = u1.port := by rw [← heq1]; exact himg u1
    have hq2 : t2.port = u2.port := by rw [← heq2]; exact himg u2
    have hu12 : u1 = u2 := hI.holderUnique u1 hu1 u2 hu2 p
      (by rw [← hq1]; exact hp1) (by rw [← hq2]; exact hp2)
    rw [← heq1, ← heq2, hu12]

theorem inv_prepare {s : SysState} (hI : Inv s) (pid : String) :
    Inv (prepareOp s pid).2 := by
  cases hg : getSession s pid with
  | none =>
    have hfresh := getSession_none hg
    have hgoal : (prepareOp s pid).2 = { s with sessions :=
        { projectId := pid, state := SessionState.preparing, port := none,
          lastError := none } :: s.sessions } := by
      simp [prepareOp, hg]
    rw [hgoal]
    constructor
    · simp only [List.map_cons]
      refine List.nodup_cons.mpr ⟨?_, hI.keysNodup⟩
      intro hmem
      obtain ⟨u, hu, hequ⟩ := List.mem_map.mp hmem
      exact hfresh u hu hequ
    · exact hI.usedNodup
    · intro t ht p hp
      rcases List.mem_cons.mp ht with rfl | ht2
      · simp at hp
      · exact hI.portRange t ht2 p hp
    · intro t ht hsome
      rcases List.mem_cons.mp ht with rfl | ht2
      · simp at hsome
      · exact hI.portLive t ht2 hsome
    · intro p
      constructor
      · intro hp
        obtain ⟨u, hu, hport⟩ := (hI.usedIff p).mp hp
        exact ⟨u, List.mem_cons_of_mem _ hu, hport⟩
      · rintro ⟨u, hu, hport⟩
        rcases List.mem_cons.mp hu with rfl | hu2
        · simp at hport
        · exact (hI.usedIff p).mpr ⟨u, hu2, hport⟩
    · intro t1 h1 t2 h2 p hp1 hp2
      rcases List.mem_cons.mp h1 with rfl | h1b
      · simp at hp1
      · rcases List.mem_cons.mp h2 with rfl | h2b
        · simp at hp2
        · exact hI.holderUnique t1 h1b t2 h2b p hp1 hp2
  | some t =>
    obtain ⟨htmem, htpid⟩ := getSession_mem hg
    by_cases hcond : t.state = SessionState.not_prepared
        ∨ t.state = SessionState.stopped ∨ t.state = SessionState.error
    · have hgoal : (prepareOp s pid).2 = { s with sessions :=
          (updateSession s.sessions pid (fun u =>
            { u with state := SessionState.preparing,
                     lastError := none })) } := by
        simp [prepareOp, hg, hcond]
      rw [hgoal]
      refine inv_updateState hI pid _ (fun u => rfl) (fun u => rfl) ?_
      intro u hu hukey husome
      have hut : u = t :=
        session_eq_of_key hI.keysNodup hu htmem (by rw [hukey, htpid])
      have hlive := hI.portLive u hu husome
      rw [hut] at hlive
      rcases hcond with hst | hst | hst <;> rcases hlive with hl | hl | hl <;>
        rw [hst] at hl <;> exact absurd hl (by decide)
    · have hgoal : (prepareOp s pid).2 = s := by
        simp [prepareOp, hg, hcond]
      rw [hgoal]
      exact hI

theorem inv_finishInstall {s : SysState} (hI : Inv s) (pid : String)
    (ok : Bool) : Inv (finishInstall s pid ok) := by
  refine inv_updateState hI pid (fun u =>
      if u.state = SessionState.preparing then
        if ok then { u with state := SessionState.ready }
        else { u with state := SessionState.error,
                      lastError := some "PreparationFailed" }
      else u) ?_ ?_ ?_
  · intro u
    by_cases hu : u.state = SessionState.preparing <;> cases ok <;> simp [hu]
  · intro u
    by_cases hu : u.state = SessionState.preparing <;> cases ok <;> simp [hu]
  · intro u hu hukey husome
    have hlive := hI.portLive u hu husome
    by_cases hprep : u.state = SessionState.preparing
    · rcases hlive with hl | hl | hl <;> rw [hprep] at hl <;>
        exact absurd hl (by decide)
    · simp only [if_neg hprep]
      exact hlive

/-- Preservation of the invariant when a ready, port-free session is
assigned a freshly acquired port and moved into a live state. -/
theorem inv_assign_port {s : SysState} (hI : Inv s) (pid : String)
    {t : Session} (htmem : t ∈ s.sessions) (htpid : t.projectId = pid)
    (htport : t.port = none) {p : Nat}
    (hrange : PORT_MIN ≤ p ∧ p ≤ PORT_MAX) (hfree : p ∉ s.usedPorts)
    (newSt : SessionState)
    (hlive : newSt = SessionState.launching ∨ newSt = SessionState.running
      ∨ newSt = SessionState.stopping) :
    Inv { sessions := (updateSession s.sessions pid (fun u => { u with state := newSt, port := some p })), usedPorts := p :: s.usedPorts } := by
  have himg : ∀ u, u ∈ s.sessions → u.projectId = pid → u = t :=
    fun u hu hc =>
      session_eq_of_key hI.keysNodup hu htmem (by rw [hc, htpid])
  constructor
  · show (List.map Session.projectId (updateSession s.sessions pid (fun u => { u with state := newSt, port := some p }))).Nodup
    rw [updateSession_keys s.sessions pid
      (fun u => { u with state := newSt, port := some p })
      (fun u => rfl)]
    exact hI.keysNodup
  · exact List.nodup_cons.mpr ⟨hfree, hI.usedNodup⟩
  · intro t2 ht2 q hq
    obtain ⟨u, hu, heq⟩ := List.mem_map.mp ht2
    by_cases hc : u.projectId = pid
    · have ht2e : t2 = { u with state := newSt, port := some p } := by
        rw [← heq]; simp [hc]
      rw [ht2e] at hq
      simp only [Option.some.injEq] at hq
      rw [← hq]
      exact hrange
    · have ht2e : t2 = u := by rw [← heq]; simp [hc]
      rw [ht2e] at hq
      exact hI.portRange u hu q hq
  · intro t2 ht2 hsome
    obtain ⟨u, hu, heq⟩ := List.mem_map.mp ht2
    by_cases hc : u.projectId = pid
    · have ht2e : t2 = { u with state := newSt, port := some p } := by
        rw [← heq]; simp [hc]
      rw [ht2e]
      exact hlive
    · have ht2e : t2 = u := by rw [← heq]; simp [hc]
      rw [ht2e] at hsome ⊢
      exact hI.portLive u hu hsome
  · intro q
    constructor
    · intro hq
      rcases List.mem_cons.mp hq with rfl | hq2
      · refine ⟨(fun v => if v.projectId == pid then
            { v with state := newSt, port := some q }
            else v) t, List.mem_map_of_mem _ htmem, ?_⟩
        simp [htpid]
      · obtain ⟨u, hu, hport⟩ := (hI.usedIff q).mp hq2
        by_cases hc : u.projectId = pid
        · rw [himg u hu hc, htport] at hport
          exact absurd hport (by simp)
        · refine ⟨(fun v => if v.projectId == pid then
              { v with state := newSt, port := some p }
              else v) u, List.mem_map_of_mem _ hu, ?_⟩
          simp [hc, hport]
    · rintro ⟨t2, ht2, hport⟩
      obtain ⟨u, hu, heq⟩ := List.mem_map.mp ht2
      by_cases hc : u.projectId = pid
      · have ht2e : t2 = { u with state := newSt, port := some p } := by
          rw [← heq]; simp [hc]
        rw [ht2e] at hport
        simp only [Option.some.injEq] at hport
        exact List.mem_cons.mpr (Or.inl hport.symm)
      · have ht2e : t2 = u := by rw [← heq]; simp [hc]
        rw [ht2e] at hport
        exact List.mem_cons_of_mem _ ((hI.usedIff q).mpr ⟨u, hu, hport⟩)
  · intro t1 h1 t2 h2 q hp1 hp2
    obtain ⟨u1, hu1, heq1⟩ := List.mem_map.mp h1
    obtain ⟨u2, hu2, heq2⟩ := List.mem_map.mp h2
    by_cases hc1 : u1.projectId = pid
    · by_cases hc2 : u2.projectId = pid
      · have e1 : u1 = t := himg u1 hu1 hc1
        have e2 : u2 = t := himg u2 hu2 hc2
        rw [← heq1, ← heq2, e1, e2]
      · have ht1e : t1 = { u1 with state := newSt, port := some p } := by
          rw [← heq1]; simp [hc1]
        rw [ht1e] at hp1
        simp only [Option.some.injEq] at hp1
        have ht2e : t2 = u2 := by rw [← heq2]; simp [hc2]
        rw [ht2e] at hp2
        have hmemq : q ∈ s.usedPorts := (hI.usedIff q).mpr ⟨u2, hu2, hp2⟩
        rw [← hp1] at hmemq
        exact absurd hmemq hfree
    · by_cases hc2 : u2.projectId = pid
      · have ht2e : t2 = { u2 with state := newSt, port := some p } := by
          rw [← heq2]; simp [hc2]
        rw [ht2e] at hp2
        simp only [Option.some.injEq] at hp2
        have ht1e : t1 = u1 := by rw [← heq1]; simp [hc1]
        rw [ht1e] at hp1
        have hmemq : q ∈ s.usedPorts := (hI.usedIff q).mpr ⟨u1, hu1, hp1⟩
        rw [← hp2] at hmemq
        exact absurd hmemq hfree
      · have ht1e : t1 = u1 := by rw [← heq1]; simp [hc1]
        have ht2e : t2 = u2 := by rw [← heq2]; simp [hc2]
        rw [ht1e] at hp1
        rw [ht2e] at hp2
        rw [ht1e, ht2e]
        exact hI.holderUnique u1 hu1 u2 hu2 q hp1 hp2

theorem inv_launch {s : SysState} (hI : Inv s) (pid : String) :
    Inv (launchOp s pid).2 := by
  cases hg : getSession s pid with
  | none =>
    have hgoal : (launchOp s pid).2 = s := by simp [launchOp, hg]
    rw [hgoal]; exact hI
  | some t =>
    by_cases hready : t.state = SessionState.ready
    · cases hacq : acquire s with
      | none =>
        have hgoal : (launchOp s pid).2 = s := by
          simp [launchOp, hg, hready, hacq]
        rw [hgoal]; exact hI
      | some p =>
        obtain ⟨htmem, htpid⟩ := getSession_mem hg
        have htport : t.port = none := by
          cases hp : t.port with
          | none => rfl
          | some q =>
            have hlive := hI.portLive t htmem (by simp [hp])
            rcases hlive with hl | hl | hl <;> rw [hready] at hl <;>
              exact absurd hl (by decide)
        have hgoal : (launchOp s pid).2 =
            { sessions := (updateSession s.sessions pid (fun u =>
                { u with state := SessionState.running, port := some p })),
              usedPorts := p :: s.usedPorts } := by
          simp [launchOp, hg, hready, hacq]
        rw [hgoal]
        exact inv_assign_port hI pid htmem htpid htport (acquire_range hacq)
          (acquire_free hacq) SessionState.running (Or.inr (Or.inl rfl))
    · have hgoal : (launchOp s pid).2 = s := by simp [launchOp, hg, hready]
      rw [hgoal]; exact hI

theorem inv_launchStart {s : SysState} (hI : Inv s) (pid : String) :
    Inv (launchStartOp s pid).2 := by
  cases hg : getSession s pid with
  | none =>
    have hgoal : (launchStartOp s pid).2 = s := by simp [launchStartOp, hg]
    rw [hgoal]; exact hI
  | some t =>
    by_cases hready : t.state = SessionState.ready
    · cases hacq : acquire s with
      | none =>
        have hgoal : (launchStartOp s pid).2 = s := by
          simp [launchStartOp, hg, hready, hacq]
        rw [hgoal]; exact hI
      | some p =>
        obtain ⟨htmem, htpid⟩ := getSession_mem hg
        have htport : t.port = none := by
          cases hp : t.port with
          | none => rfl
          | some q =>
            have hlive := hI.portLive t htmem (by simp [hp])
            rcases hlive with hl | hl | hl <;> rw [hready] at hl <;>
              exact absurd hl (by decide)
        have hgoal : (launchStartOp s pid).2 =
            { sessions := (updateSession s.sessions pid (fun u =>
                { u with state := SessionState.launching, port := some p })),
              usedPorts := p :: s.usedPorts } := by
          simp [launchStartOp, hg, hready, hacq]
        rw [hgoal]
        exact inv_assign_port hI pid htmem htpid htport (acquire_range hacq)
          (acquire_free hacq) SessionState.launching (Or.inl rfl)
    · have hgoal : (launchStartOp s pid).2 = s := by
        simp [launchStartOp, hg, hready]
      rw [hgoal]; exact hI

theorem inv_park {s : SysState} (hI : Inv s) (pid : String)
    (final : SessionState) (err : Option String) :
    Inv (parkSession s pid final err) := by
  cases hg : getSession s pid with
  | none =>
    have hgoal : parkSession s pid final err = s := by simp [parkSession, hg]
    rw [hgoal]; exact hI
  | some t =>
    cases hp : t.port with
    | none =>
      have hgoal : parkSession s pid final err = s := by
        simp [parkSession, hg, hp]
      rw [hgoal]; exact hI
    | some p =>
      obtain ⟨htmem, htpid⟩ := getSession_mem hg
      have himg : ∀ u, u ∈ s.sessions → u.projectId = pid → u = t :=
        fun u hu hc =>
          session_eq_of_key hI.keysNodup hu htmem (by rw [hc, htpid])
      have hgoal : parkSession s pid final err =
          { sessions := (updateSession s.sessions pid (fun u =>
              { u with state := final, port := none, lastError := err })),
            usedPorts := s.usedPorts.erase p } := by
        simp [parkSession, hg, hp]
      rw [hgoal]
      constructor
      · show (List.map Session.projectId (updateSession s.sessions pid (fun u => { u with state := final, port := none, lastError := err }))).Nodup
        rw [updateSession_keys s.sessions pid
          (fun u => { u with state := final, port := none, lastError := err })
          (fun u => rfl)]
        exact hI.keysNodup
      · exact hI.usedNodup.erase p
      · intro t2 ht2 q hq
        obtain ⟨u, hu, heq⟩ := List.mem_map.mp ht2
        by_cases hc : u.projectId = pid
        · have ht2e : t2 =
              { u with state := final, port := none, lastError := err } := by
            rw [← heq]; simp [hc]
          rw [ht2e] at hq
          simp at hq
        · have ht2e : t2 = u := by rw [← heq]; simp [hc]
          rw [ht2e] at hq
          exact hI.portRange u hu q hq
      · intro t2 ht2 hsome
        obtain ⟨u, hu, heq⟩ := List.mem_map.mp ht2
        by_cases hc : u.projectId = pid
        · have ht2e : t2 =
              { u with state := final, port := none, lastError := err } := by
            rw [← heq]; simp [hc]
          rw [ht2e] at hsome
          simp at hsome
        · have ht2e : t2 = u := by rw [← heq]; simp [hc]
          rw [ht2e] at hsome ⊢
          exact hI.portLive u hu hsome
      · intro q
        constructor
        · intro hq
          obtain ⟨hqp, hqu⟩ := (hI.usedNodup.mem_erase_iff).mp hq
          obtain ⟨u, hu, hport⟩ := (hI.usedIff q).mp hqu
          by_cases hc : u.projectId = pid
          · rw [himg u hu hc, hp] at hport
            simp only [Option.some.injEq] at hport
            exact absurd hport.symm hqp
          · refine ⟨(fun v => if v.projectId == pid then
                { v with state := final, port := none, lastError := err }
                else v) u, List.mem_map_of_mem _ hu, ?_⟩
            simp [hc, hport]
        · rintro ⟨t2, ht2, hport⟩
          obtain ⟨u, hu, heq⟩ := List.mem_map.mp ht2
          by_cases hc : u.projectId = pid
          · have ht2e : t2 =
                { u with state := final, port := none, lastError := err } := by
              rw [← heq]; simp [hc]
            rw [ht2e] at hport
            simp at hport
          · have ht2e : t2 = u := by rw [← heq]; simp [hc]
            rw [ht2e] at hport
            have hqu : q ∈ s.usedPorts := (hI.usedIff q).mpr ⟨u, hu, hport⟩
            refine (hI.usedNodup.mem_erase_iff).mpr ⟨?_, hqu⟩
            intro hqp
            have hut : u = t := hI.holderUnique u hu t htmem p
              (by rw [← hqp]; exact hport) hp
            exact hc (by rw [hut, htpid])
      · intro t1 h1 t2 h2 q hp1 hp2
        obtain ⟨u1, hu1, heq1⟩ := List.mem_map.mp h1
        obtain ⟨u2, hu2, heq2⟩ := List.mem_map.mp h2
        by_cases hc1 : u1.projectId = pid
        · have ht1e : t1 =
              { u1 with state := final, port := none, lastError := err } := by
            rw [← heq1]; simp [hc1]
          rw [ht1e] at hp1
          simp at hp1
        · by_cases hc2 : u2.projectId = pid
          · have ht2e : t2 =
                { u2 with state := final, port := none, lastError := err } := by
              rw [← heq2]; simp [hc2]
            rw [ht2e] at hp2
            simp at hp2
          · have ht1e : t1 = u1 := by rw [← heq1]; simp [hc1]
            have ht2e : t2 = u2 := by rw [← heq2]; simp [hc2]
            rw [ht1e] at hp1
            rw [ht2e] at hp2
            rw [ht1e, ht2e]
            exact hI.holderUnique u1 hu1 u2 hu2 q hp1 hp2

theorem inv_probeSucceed {s : SysState} (hI : Inv s) (pid : String) :
    Inv (probeSucceedOp s pid) := by
  refine inv_updateState hI pid (fun u =>
      if u.state = SessionState.launching then
        { u with state := SessionState.running }
      else u) ?_ ?_ ?_
  · intro u
    by_cases hu : u.state = SessionState.launching <;> simp [hu]
  · intro u
    by_cases hu : u.state = SessionState.launching <;> simp [hu]
  · intro u hu hukey husome
    by_cases hl : u.state = SessionState.launching
    · simp [if_pos hl]
    · simp only [if_neg hl]
      exact hI.portLive u hu husome

theorem inv_stopBegin {s : SysState} (hI : Inv s) (pid : String) :
    Inv (stopBeginOp s pid) := by
  refine inv_updateState hI pid (fun u =>
      if u.state = SessionState.running ∨ u.state = SessionState.launching then
        { u with state := SessionState.stopping }
      else u) ?_ ?_ ?_
  · intro u
    by_cases hu : u.state = SessionState.running
        ∨ u.state = SessionState.launching <;> simp [hu]
  · intro u
    by_cases hu : u.state = SessionState.running
        ∨ u.state = SessionState.launching <;> simp [hu]
  · intro u hu hukey husome
    by_cases hl : u.state = SessionState.running
        ∨ u.state = SessionState.launching
    · simp [if_pos hl]
    · simp only [if_neg hl]
      exact hI.portLive u hu husome

theorem inv_probeFail {s : SysState} (hI : Inv s) (pid : String) :
    Inv (probeFailOp s pid) := by
  cases hg : getSession s pid with
  | none => simpa [probeFailOp, hg] using hI
  | some t =>
    by_cases hl : t.state = SessionState.launching
    · have hgoal : probeFailOp s pid
          = parkSession s pid SessionState.error (some "LaunchFailed") := by
        simp [probeFailOp, hg, hl]
      rw [hgoal]
      exact inv_park hI pid SessionState.error (some "LaunchFailed")
    · have hgoal : probeFailOp s pid = s := by simp [probeFailOp, hg, hl]
      rw [hgoal]; exact hI

theorem inv_bindRetry {s : SysState} (hI : Inv s) (pid : String) :
    Inv (bindRetryOp s pid) := by
  cases hg : getSession s pid with
  | none => simpa [bindRetryOp, hg] using hI
  | some t =>
    by_cases hl : t.state = SessionState.launching
    · have hgoal : bindRetryOp s pid
          = (launchStartOp (parkSession s pid SessionState.ready none) pid).2 := by
        simp [bindRetryOp, hg, hl]
      rw [hgoal]
      exact inv_launchStart (inv_park hI pid SessionState.ready none) pid
    · have hgoal : bindRetryOp s pid = s := by simp [bindRetryOp, hg, hl]
      rw [hgoal]; exact hI

/-- Preservation of the invariant when a port that no tracked session holds
is erased from the used set. -/
theorem inv_erase_unheld {s : SysState} (hI : Inv s) {p : Nat}
    (hnone : ∀ u ∈ s.sessions, u.port ≠ some p) :
    Inv { s with usedPorts := s.usedPorts.erase p } := by
  constructor
  · exact hI.keysNodup
  · exact hI.usedNodup.erase p
  · exact hI.portRange
  · exact hI.portLive
  · intro q
    constructor
    · intro hq
      obtain ⟨_, hqu⟩ := (hI.usedNodup.mem_erase_iff).mp hq
      exact (hI.usedIff q).mp hqu
    · rintro ⟨u, hu, hport⟩
      refine (hI.usedNodup.mem_erase_iff).mpr
        ⟨?_, (hI.usedIff q).mpr ⟨u, hu, hport⟩⟩
      intro hqp
      exact hnone u hu (by rw [← hqp]; exact hport)
  · exact hI.holderUnique

theorem inv_releasePort {s : SysState} (hI : Inv s) (p : Nat) :
    Inv (releasePortOp s p).2 := by
  cases hf : s.sessions.find? (fun t => t.port == some p) with
  | some t =>
    have hgoal : (releasePortOp s p).2
        = parkSession s t.projectId SessionState.stopped none := by
      simp [releasePortOp, hf]
    rw [hgoal]
    exact inv_park hI t.projectId SessionState.stopped none
  | none =>
    have hnone : ∀ u ∈ s.sessions, u.port ≠ some p := by
      intro u hu hup
      have hpred := List.find?_eq_none.mp hf u hu
      simp [hup] at hpred
    have hgoal : (releasePortOp s p).2
        = { s with usedPorts := s.usedPorts.erase p } := by
      simp [releasePortOp, hf]
    rw [hgoal]
    exact inv_erase_unheld hI hnone

theorem inv_stopAll {s : SysState} (hI : Inv s) (fails : String → Bool) :
    Inv (stopAllOp s fails).2 := by
  have hgoal : (stopAllOp s fails).2 = { sessions := s.sessions.map (fun t => if t.port.isSome && !(fails t.projectId) then { t with state := SessionState.stopped, port := none } else t), usedPorts := s.usedPorts.filter (fun p => !(decide (p ∈ (s.sessions.filter (fun t => t.port.isSome && !(fails t.projectId))).filterMap (fun t => t.port)))) } := rfl
  rw [hgoal]
  set g : Session → Session := fun t => if t.port.isSome && !(fails t.projectId) then { t with state := SessionState.stopped, port := none } else t with hgdef
  set freed : List Nat := (s.sessions.filter (fun t => t.port.isSome && !(fails t.projectId))).filterMap (fun t => t.port) with hfreeddef
  have hg_stop : ∀ u : Session, (u.port.isSome && !(fails u.projectId)) = true →
      g u = { u with state := SessionState.stopped, port := none } := by
    intro u hc
    simp only [hgdef]
    rw [if_pos hc]
  have hg_keep : ∀ u : Session,
      ¬((u.port.isSome && !(fails u.projectId)) = true) → g u = u := by
    intro u hc
    simp only [hgdef]
    rw [if_neg hc]
  have hgid : ∀ u : Session, (g u).projectId = u.projectId := by
    intro u
    by_cases hc : (u.port.isSome && !(fails u.projectId)) = true
    · rw [hg_stop u hc]
    · rw [hg_keep u hc]
  have hfreedmem : ∀ q : Nat, q ∈ freed ↔ ∃ u, u ∈ s.sessions
      ∧ (u.port.isSome && !(fails u.projectId)) = true ∧ u.port = some q := by
    intro q
    rw [hfreeddef, List.mem_filterMap]
    constructor
    · rintro ⟨u, hu, hport⟩
      obtain ⟨hu1, hu2⟩ := List.mem_filter.mp hu
      exact ⟨u, hu1, hu2, hport⟩
    · rintro ⟨u, hu1, hu2, hport⟩
      exact ⟨u, List.mem_filter.mpr ⟨hu1, hu2⟩, hport⟩
  constructor
  · show (List.map Session.projectId (s.sessions.map g)).Nodup
    rw [List.map_map, show Session.projectId ∘ g = Session.projectId from funext hgid]
    exact hI.keysNodup
  · exact hI.usedNodup.filter _
  · intro t2 ht2 q hq
    obtain ⟨u, hu, heq⟩ := List.mem_map.mp ht2
    by_cases hc : (u.port.isSome && !(fails u.projectId)) = true
    · rw [← heq, hg_stop u hc] at hq
      simp at hq
    · rw [← heq, hg_keep u hc] at hq
      exact hI.portRange u hu q hq
  · intro t2 ht2 hsome
    obtain ⟨u, hu, heq⟩ := List.mem_map.mp ht2
    by_cases hc : (u.port.isSome && !(fails u.projectId)) = true
    · rw [← heq, hg_stop u hc] at hsome
      simp at hsome
    · rw [← heq, hg_keep u hc] at hsome ⊢
      exact hI.portLive u hu hsome
  · intro q
    show q ∈ s.usedPorts.filter (fun p => !(decide (p ∈ freed)))
      ↔ ∃ t2, t2 ∈ s.sessions.map g ∧ t2.port = some q
    rw [List.mem_filter]
    constructor
    · rintro ⟨hqu, hqf⟩
      have hqnf : q ∉ freed := by simpa using hqf
      obtain ⟨u, hu, hport⟩ := (hI.usedIff q).mp hqu
      by_cases hc : (u.port.isSome && !(fails u.projectId)) = true
      · exact absurd ((hfreedmem q).mpr ⟨u, hu, hc, hport⟩) hqnf
      · refine ⟨g u, List.mem_map_of_mem g hu, ?_⟩
        rw [hg_keep u hc]
        exact hport
    · rintro ⟨t2, ht2, hport⟩
      obtain ⟨u, hu, heq⟩ := List.mem_map.mp ht2
      by_cases hc : (u.port.isSome && !(fails u.projectId)) = true
      · rw [← heq, hg_stop u hc] at hport
        simp at hport
      · rw [← heq, hg_keep u hc] at hport
        refine ⟨(hI.usedIff q).mpr ⟨u, hu, hport⟩, ?_⟩
        have hqnf : q ∉ freed := by
          intro hqf
          obtain ⟨w, hw, hwc, hwport⟩ := (hfreedmem q).mp hqf
          have hwu : w = u := hI.holderUnique w hw u hu q hwport hport
          rw [hwu] at hwc
          exact hc hwc
        simpa using hqnf
  · intro t1 h1 t2 h2 q hp1 hp2
    obtain ⟨u1, hu1, heq1⟩ := List.mem_map.mp h1
    obtain ⟨u2, hu2, heq2⟩ := List.mem_map.mp h2
    by_cases hc1 : (u1.port.isSome && !(fails u1.projectId)) = true
    · rw [← heq1, hg_stop u1 hc1] at hp1
      simp at hp1
    · by_cases hc2 : (u2.port.isSome && !(fails u2.projectId)) = true
      · rw [← heq2, hg_stop u2 hc2] at hp2
        simp at hp2
      · rw [← heq1, hg_keep u1 hc1] at hp1
        rw [← heq2, hg_keep u2 hc2] at hp2
        rw [← heq1, ← heq2, hg_keep u1 hc1, hg_keep u2 hc2]
        exact hI.holderUnique u1 hu1 u2 hu2 q hp1 hp2

theorem inv_initState : Inv initState := by
  constructor <;> simp [initState]

theorem inv_step {s1 s2 : SysState} (hI : Inv s1) (hs : Step s1 s2) :
    Inv s2 := by
  cases hs with
  | prepare pid => exact inv_prepare hI pid
  | finish pid ok => exact inv_finishInstall hI pid ok
  | launch pid => exact inv_launch hI pid
  | launchStart pid => exact inv_launchStart hI pid
  | bindRetry pid => exact inv_bindRetry hI pid
  | probeSucceed pid => exact inv_probeSucceed hI pid
  | probeFail pid => exact inv_probeFail hI pid
  | stopBegin pid => exact inv_stopBegin hI pid
  | stop pid => exact inv_park hI pid SessionState.stopped none
  | crash pid => exact inv_park hI pid SessionState.error (some "ProcessCrashed")
  | stopAll fails => exact inv_stopAll hI fails
  | releasePort p => exact inv_releasePort hI p

theorem reachable_inv {s : SysState} (h : Reachable s) : Inv s := by
  induction h with
  | base => exact inv_initState
  | step _ hs ih => exact inv_step ih hs

theorem find?_updateSession (ss : List Session) (pid : String)
    (f : Session → Session) (hfid : ∀ u, (f u).projectId = u.projectId) :
    (updateSession ss pid f).find? (fun t => t.projectId == pid)
      = (ss.find? (fun t => t.projectId == pid)).map f := by
  induction ss with
  | nil => rfl
  | cons e rest ih =>
    by_cases hc : e.projectId = pid
    · have hbeq : (e.projectId == pid) = true := beq_iff_eq.mpr hc
      have hbeq2 : ((f e).projectId == pid) = true := by rw [hfid]; exact hbeq
      have hhead : updateSession (e :: rest) pid f
          = f e :: updateSession rest pid f := by
        simp [updateSession, hc]
      rw [hhead]
      simp [List.find?_cons, hbeq, hbeq2]
    · have hbeq : (e.projectId == pid) = false := beq_eq_false_iff_ne.mpr hc
      have hhead : updateSession (e :: rest) pid f
          = e :: updateSession rest pid f := by
        simp [updateSession, hc]
      rw [hhead]
      simp only [List.find?_cons, hbeq]
      exact ih

theorem filterMap_port_length (l : List Session)
    (h : ∀ t ∈ l, t.port.isSome = true) :
    (l.filterMap (fun t => t.port)).length = l.length := by
  induction l with
  | nil => rfl
  | cons e rest ih =>
    have he := h e (List.mem_cons_self e rest)
    obtain ⟨q, hq⟩ := Option.isSome_iff_exists.mp he
    simp only [List.filterMap_cons, hq, List.length_cons]
    rw [ih (fun t ht => h t (List.mem_cons_of_mem e ht))]

theorem stopAll_count (ss : List Session) (fails : String → Bool) :
    (ss.filter (fun t => t.port.isSome && !(fails t.projectId))).length
      + ((ss.map (fun t => if t.port.isSome && !(fails t.projectId) then { t with state := SessionState.stopped, port := none } else t)).filter (fun t => t.port.isSome)).length
      = (ss.filter (fun t => t.port.isSome)).length := by
  induction ss with
  | nil => rfl
  | cons e rest ih =>
    by_cases hc : (e.port.isSome && !(fails e.projectId)) = true
    · have h1 : e.port.isSome = true := by
        cases hpe : e.port.isSome
        · exfalso
          rw [hpe] at hc
          simp at hc
        · rfl
      have hfail : fails e.projectId = false := by
        cases hf : fails e.projectId
        · rfl
        · exfalso
          rw [hf, h1] at hc
          simp at hc
      simp [List.filter_cons, List.map_cons, h1, hfail] at ih ⊢
      omega
    · by_cases h1 : e.port.isSome = true
      · have hfail : fails e.projectId = true := by
          cases hf : fails e.projectId
          · exfalso
            apply hc
            rw [h1, hf]
            rfl
          · rfl
        simp [List.filter_cons, List.map_cons, h1, hfail] at ih ⊢
        omega
      · have h1f : e.port.isSome = false := by
          cases hpe : e.port.isSome
          · rfl
          · exact absurd hpe h1
        simp [List.filter_cons, List.map_cons, h1f] at ih ⊢
        omega

/-! ## Demonstration states used by the witnesses -/

/-- Demonstration state: one project prepared, installed, and launched from
the initial core state. -/
def demoLaunched : SysState :=
  (launchOp (finishInstall (prepareOp initState "p1").2 "p1" true) "p1").2

/-- Demonstration state: the launched project subsequently stopped. -/
def demoStopped : SysState := (stopOp demoLaunched "p1").2

/-- Demonstration state: a project whose preparation has just started. -/
def demoPreparing : SysState := (prepareOp initState "p1").2

/-- Demonstration state: one ready session while every pool port is held. -/
def demoExhausted : SysState :=
  { sessions := [{ projectId := "p101", state := SessionState.ready, port := none, lastError := none }],
    usedPorts := portPool }

/-- Demonstration state: two running sessions on distinct ports. -/
def demoPair : SysState :=
  { sessions := [{ projectId := "a", state := SessionState.running, port := some 8501, lastError := none },
      { projectId := "b", state := SessionState.running, port := some 8502, lastError := none }],
    usedPorts := [8501, 8502] }

/-- Demonstration supervisor failure: stopping project a fails. -/
def demoFails : String → Bool := fun pid => pid == "a"

theorem reachable_demoLaunched : Reachable demoLaunched := by
  unfold demoLaunched
  exact Reachable.step (Reachable.step (Reachable.step Reachable.base
    (Step.prepare initState "p1"))
    (Step.finish (prepareOp initState "p1").2 "p1" true))
    (Step.launch (finishInstall (prepareOp initState "p1").2 "p1" true) "p1")

theorem reachable_demoStopped : Reachable demoStopped := by
  unfold demoStopped
  exact Reachable.step reachable_demoLaunched (Step.stop demoLaunched "p1")

/-! ## Claims about the orchestration core -/

/-- C1: in every reachable core state no two sessions hold the same port,
every held port lies in the fixed range, a port is held only by a session in
a live state (launching, running or stopping), and a port is in use exactly
when exactly one session holds it. -/
theorem port_uniqueness_invariant (s : SysState) (h : Reachable s) :
    (∀ t1, t1 ∈ s.sessions → ∀ t2, t2 ∈ s.sessions → ∀ p : Nat,
        t1.port = some p → t2.port = some p → t1 = t2)
    ∧ (∀ t, t ∈ s.sessions → ∀ p : Nat, t.port = some p →
        PORT_MIN ≤ p ∧ p ≤ PORT_MAX)
    ∧ (∀ t, t ∈ s.sessions → t.port.isSome = true →
        t.state = SessionState.launching ∨ t.state = SessionState.running
        ∨ t.state = SessionState.stopping)
    ∧ (∀ p : Nat, p ∈ s.usedPorts ↔ ∃ t, t ∈ s.sessions ∧ t.port = some p
        ∧ ∀ u, u ∈ s.sessions → u.port = some p → u = t) := by
  have hI := reachable_inv h
  refine ⟨hI.holderUnique, hI.portRange, hI.portLive, fun p => ?_⟩
  constructor
  · intro hp
    obtain ⟨t, ht, hport⟩ := (hI.usedIff p).mp hp
    exact ⟨t, ht, hport, fun u hu hup => hI.holderUnique u hu t ht p hup hport⟩
  · rintro ⟨t, ht, hport, _⟩
    exact (hI.usedIff p).mpr ⟨t, ht, hport⟩

/-- Witness for C1 at a concrete reachable state holding port 8501. -/
theorem port_uniqueness_invariant_instance :
    8501 ∈ demoLaunched.usedPorts ↔ ∃ t, t ∈ demoLaunched.sessions
      ∧ t.port = some 8501
      ∧ ∀ u, u ∈ demoLaunched.sessions → u.port = some 8501 → u = t :=
  (port_uniqueness_invariant demoLaunched reachable_demoLaunched).2.2.2 8501

/-- C5: when every port of the pool range is held, acquire fails with
EXHAUSTED, launching a further ready project reports PortExhausted to the
caller, and the state (hence the pool) is unchanged. -/
theorem pool_exhaustion (s : SysState) (pid : String) (t : Session)
    (hfull : ∀ p, p ∈ portPool → p ∈ s.usedPorts)
    (ht : getSession s pid = some t)
    (hready : t.state = SessionState.ready) :
    acquire s = none ∧ launchOp s pid = (LaunchResult.portExhausted, s) := by
  have hacq : acquire s = none := by
    unfold acquire
    rw [List.find?_eq_none]
    intro p hp
    simp [hfull p hp]
  refine ⟨hacq, ?_⟩
  simp [launchOp, ht, hready, hacq]

/-- Witness for C5: with the whole pool range held, launching the ready
project p101 yields PortExhausted and leaves the state unchanged. -/
theorem pool_exhaustion_instance :
    acquire demoExhausted = none
    ∧ launchOp demoExhausted "p101"
      = (LaunchResult.portExhausted, demoExhausted) :=
  pool_exhaustion demoExhausted "p101"
    { projectId := "p101", state := SessionState.ready, port := none, lastError := none }
    (fun _ hp => hp) (by decide) rfl

/-- C6: stop is idempotent: the second of two consecutive stops is a success
no-op that leaves the state unchanged, and stopping a session that is
already stopped is a success no-op. -/
theorem stopOp_noop {s : SysState} {pid : String}
    (h : getSession s pid = none
      ∨ ∃ t, getSession s pid = some t ∧ t.port = none) :
    stopOp s pid = (StopResult.noop, s) := by
  rcases h with hg | ⟨t, hg, hp⟩
  · have hpark : parkSession s pid SessionState.stopped none = s := by
      simp [parkSession, hg]
    simp [stopOp, hg, hpark]
  · have hpark : parkSession s pid SessionState.stopped none = s := by
      simp [parkSession, hg, hp]
    simp [stopOp, hg, hp, hpark]

theorem stop_idempotent (s : SysState) (pid : String) (h : Reachable s) :
    stopOp (stopOp s pid).2 pid = (StopResult.noop, (stopOp s pid).2)
    ∧ (∀ t, getSession s pid = some t → t.state = SessionState.stopped →
        stopOp s pid = (StopResult.noop, s)) := by
  constructor
  · cases hg : getSession s pid with
    | none =>
      have hpark : parkSession s pid SessionState.stopped none = s := by
        simp [parkSession, hg]
      rw [show (stopOp s pid).2 = s from hpark]
      exact stopOp_noop (Or.inl hg)
    | some t =>
      cases hp : t.port with
      | none =>
        have hpark : parkSession s pid SessionState.stopped none = s := by
          simp [parkSession, hg, hp]
        rw [show (stopOp s pid).2 = s from hpark]
        exact stopOp_noop (Or.inr ⟨t, hg, hp⟩)
      | some p =>
        have hs2 : (stopOp s pid).2 = { sessions := (updateSession s.sessions pid (fun u => { u with state := SessionState.stopped, port := none, lastError := none })), usedPorts := s.usedPorts.erase p } := by
          simp [stopOp, parkSession, hg, hp]
        have hget2 : getSession (stopOp s pid).2 pid = some { t with state := SessionState.stopped, port := none, lastError := none } := by
          rw [hs2]
          show (updateSession s.sessions pid (fun u => { u with state := SessionState.stopped, port := none, lastError := none })).find? (fun u => u.projectId == pid) = _
          rw [find?_updateSession s.sessions pid (fun u => { u with state := SessionState.stopped, port := none, lastError := none }) (fun u => rfl)]
          have hfind : s.sessions.find? (fun u => u.projectId == pid) = some t := hg
          rw [hfind]
          rfl
        exact stopOp_noop (Or.inr ⟨_, hget2, rfl⟩)
  · intro t ht hstop
    have hI := reachable_inv h
    obtain ⟨htmem, _⟩ := getSession_mem ht
    have hport : t.port = none := by
      cases hp : t.port with
      | none => rfl
      | some q =>
        have hlive := hI.portLive t htmem (by simp [hp])
        rcases hlive with hl | hl | hl <;> rw [hstop] at hl <;>
          exact absurd hl (by decide)
    exact stopOp_noop (Or.inr ⟨t, ht, hport⟩)

/-- Witness for C6: stopping the already-stopped project p1 is a no-op. -/
theorem stop_idempotent_instance :
    stopOp demoStopped "p1" = (StopResult.noop, demoStopped) :=
  (stop_idempotent demoStopped "p1" reachable_demoStopped).2
    { projectId := "p1", state := SessionState.stopped, port := none, lastError := none }
    (by decide) rfl

/-- C7: ensure-prepared on a session that is already preparing or ready is a
no-op that returns the current status, so no second installation starts and
the one in-flight installation decides the same eventual ready or error
outcome for both calls; the frontend install button is likewise disabled in
those states. -/
theorem prepare_idempotent_noop (s : SysState) (pid : String) (t : Session)
    (ok : Bool) (ht : getSession s pid = some t)
    (hstate : t.state = SessionState.preparing
      ∨ t.state = SessionState.ready) :
    prepareOp s pid = (t.state, s)
    ∧ finishInstall (prepareOp s pid).2 pid ok = finishInstall s pid ok
    ∧ (∀ b : Bool, ∀ es : EnvStatus,
        es = EnvStatus.preparing ∨ es = EnvStatus.ready →
        installButtonDisabled b es = true) := by
  have hnc : ¬(t.state = SessionState.not_prepared
      ∨ t.state = SessionState.stopped ∨ t.state = SessionState.error) := by
    rcases hstate with hs1 | hs1 <;> rw [hs1] <;> decide
  have hfirst : prepareOp s pid = (t.state, s) := by
    simp [prepareOp, ht, hnc]
  refine ⟨hfirst, by rw [hfirst], ?_⟩
  intro b es hes
  rcases hes with he | he <;> rw [he] <;> simp [installButtonDisabled]

/-- Witness for C7: a second ensure-prepared while p1 is still preparing
returns preparing and changes nothing. -/
theorem prepare_idempotent_noop_instance :
    prepareOp demoPreparing "p1" = (SessionState.preparing, demoPreparing) :=
  (prepare_idempotent_noop demoPreparing "p1"
    { projectId := "p1", state := SessionState.preparing, port := none, lastError := none }
    true (by decide) (Or.inl rfl)).1

/-- C8: status returns the current session snapshot and is side-effect-free:
the core state is unchanged and repeating the call any number of times still
changes nothing. -/
theorem status_side_effect_free (s : SysState) (pid : String) (n : Nat) :
    (statusOp s pid).1 = getSession s pid
    ∧ (statusOp s pid).2 = s
    ∧ (fun st => (statusOp st pid).2)^[n] s = s := by
  refine ⟨rfl, rfl, ?_⟩
  induction n with
  | zero => rfl
  | succ k ih =>
    rw [Function.iterate_succ_apply]
    exact ih

/-- C3: list-running returns exactly the sessions in running state, the raw
used-port set, changes nothing, and the orphaned ports the sidebar surfaces
are exactly the used ports minus the ports of the listed running demos. -/
theorem listRunning_orphaned_ports (s : SysState) (t : Session) (p : Nat)
    (used : List Nat) (demos : List RunningDemo) :
    (t ∈ (listRunningOp s).1.1
      ↔ t ∈ s.sessions ∧ t.state = SessionState.running)
    ∧ (listRunningOp s).1.2 = s.usedPorts
    ∧ (listRunningOp s).2 = s
    ∧ (p ∈ orphanedPorts used demos
      ↔ p ∈ used ∧ ∀ d, d ∈ demos → d.port ≠ p) := by
  refine ⟨?_, rfl, rfl, ?_⟩
  · show t ∈ s.sessions.filter (fun u => decide (u.state = SessionState.running)) ↔ _
    rw [List.mem_filter]
    simp
  · constructor
    · intro hp
      obtain ⟨hpu, hpf⟩ := List.mem_filter.mp hp
      refine ⟨hpu, fun d hd hdp => ?_⟩
      rw [Bool.not_eq_true'] at hpf
      have hall := List.any_eq_false.mp hpf d hd
      exact hall (beq_iff_eq.mpr hdp)
    · rintro ⟨hpu, hall⟩
      refine List.mem_filter.mpr ⟨hpu, ?_⟩
      rw [Bool.not_eq_true']
      rw [List.any_eq_false]
      intro d hd hc
      exact hall d hd (beq_iff_eq.mp hc)

/-- Witness for C3: port 8502 is used but no listed demo holds it, so it is
surfaced as orphaned. -/
theorem listRunning_orphaned_ports_instance :
    8502 ∈ orphanedPorts [8501, 8502]
      [{ project_id := "a", project_name := "n", port := 8501, demo_url := "u", started_at := "t" }] :=
  (listRunning_orphaned_ports initState
    { projectId := "x", state := SessionState.ready, port := none, lastError := none }
    8502 [8501, 8502]
    [{ project_id := "a", project_name := "n", port := 8501, demo_url := "u", started_at := "t" }]).2.2.2.mpr
    ⟨by decide, by decide⟩

/-- C2 (amended): stop-all stops every port-holding session whose individual
stop succeeds, even when the stop of another session fails; a failing
session is kept untouched rather than aborting the sweep; the port of every
stopped session leaves the pool; and the demos_stopped and ports_freed
counts both equal the number of sessions actually stopped. -/
theorem stopAll_best_effort (s : SysState) (fails : String → Bool) :
    (∀ t, t ∈ s.sessions → t.port.isSome = true → fails t.projectId = false →
      { t with state := SessionState.stopped, port := none }
        ∈ (stopAllOp s fails).2.sessions)
    ∧ (∀ t, t ∈ s.sessions → fails t.projectId = true →
        t ∈ (stopAllOp s fails).2.sessions)
    ∧ (∀ t, t ∈ s.sessions → ∀ q : Nat, t.port = some q →
        fails t.projectId = false → q ∉ (stopAllOp s fails).2.usedPorts)
    ∧ (stopAllOp s fails).1.demos_stopped
        + ((stopAllOp s fails).2.sessions.filter (fun t => t.port.isSome)).length
      = (s.sessions.filter (fun t => t.port.isSome)).length
    ∧ (stopAllOp s fails).1.ports_freed = (stopAllOp s fails).1.demos_stopped := by
  refine ⟨?_, ?_, ?_, ?_, ?_⟩
  · intro t ht h1 h2
    have hc : (t.port.isSome && !(fails t.projectId)) = true := by
      rw [h1, h2]
      rfl
    have himg : (fun u => if u.port.isSome && !(fails u.projectId) then { u with state := SessionState.stopped, port := none } else u) t = { t with state := SessionState.stopped, port := none } := if_pos hc
    have hmem := List.mem_map_of_mem (fun u => if u.port.isSome && !(fails u.projectId) then { u with state := SessionState.stopped, port := none } else u) ht
    rw [himg] at hmem
    exact hmem
  · intro t ht h2
    have hc : ¬((t.port.isSome && !(fails t.projectId)) = true) := by
      rw [h2]
      simp
    have himg : (fun u => if u.port.isSome && !(fails u.projectId) then { u with state := SessionState.stopped, port := none } else u) t = t := if_neg hc
    have hmem := List.mem_map_of_mem (fun u => if u.port.isSome && !(fails u.projectId) then { u with state := SessionState.stopped, port := none } else u) ht
    rw [himg] at hmem
    exact hmem
  · intro t ht q hq h2 hmem
    have hc : (t.port.isSome && !(fails t.projectId)) = true := by
      rw [hq, h2]
      rfl
    have hfreed : q ∈ (s.sessions.filter (fun u => u.port.isSome && !(fails u.projectId))).filterMap (fun u => u.port) := by
      rw [List.mem_filterMap]
      exact ⟨t, List.mem_filter.mpr ⟨ht, hc⟩, hq⟩
    have hkept := (List.mem_filter.mp hmem).2
    rw [Bool.not_eq_true'] at hkept
    simp only [decide_eq_false_iff_not] at hkept
    exact hkept hfreed
  · exact stopAll_count s.sessions fails
  · exact filterMap_port_length _ (fun t ht => by
      have hcond := (List.mem_filter.mp ht).2
      cases hpe : t.port.isSome
      · rw [hpe] at hcond
        simp at hcond
      · rfl)

/-- Witness for C2: with the stop of a failing, project b is still stopped,
its port 8502 freed, and both counts equal one. -/
theorem stopAll_best_effort_instance :
    { projectId := "b", state := SessionState.stopped, port := none, lastError := none }
      ∈ (stopAllOp demoPair demoFails).2.sessions
    ∧ 8502 ∉ (stopAllOp demoPair demoFails).2.usedPorts :=
  ⟨(stopAll_best_effort demoPair demoFails).1
      { projectId := "b", state := SessionState.running, port := some 8502, lastError := none }
      (by decide) rfl (by decide),
   (stopAll_best_effort demoPair demoFails).2.2.1
      { projectId := "b", state := SessionState.running, port := some 8502, lastError := none }
      (by decide) 8502 rfl (by decide)⟩

end ModelHub
